import Mathlib

/-!
Verification of the XML-to-Excel conversion core in `src/app.py`
(`parse_xml_to_excel`), embedded shallowly.

Modelling conventions:
* A parsed XML element (`xml.etree.ElementTree.Element`) is an `XElem`:
  tag, text, and the list of direct children in document order.  ElementTree
  stores `elem.text is None` for an element with no text content — in
  particular a present-but-empty element such as `<Date></Date>` or `<Date/>`
  has `text = None`.  We model Python `str`-or-`None` values as
  `Option String`, `none` standing for Python `None`.
* `ET.parse` itself is not re-implemented; `parse_xml_to_excel` is modelled
  on the parse outcome `XmlInput`: either a root element or a parse error
  carrying the parser's message, mirroring the `except ET.ParseError` branch.
* The openpyxl worksheet is modelled as its grid of cell values
  (`Option String`: the code writes header strings and record values, which
  are `str` or `None`) plus the per-column widths the code assigns.
  Serialisation to `BytesIO` is modelled as an `ExcelBuffer` holding the
  workbook and the stream position (`seek(0)` → position 0).
* Python operations that can raise inside the `try` block are modelled in
  `Except String`: the dict subscript `data[header]` (KeyError) in the
  row-writing loop.  The `try/except: pass` around the width computation is
  modelled inside `widthStep` (a `len(None)` raises and is swallowed,
  leaving `max_length` unchanged).
-/

/-- XML element after ElementTree parsing: tag name, text content
(`none` models ElementTree's `elem.text is None`, which is what a
present-but-empty element carries), and direct children in document order. -/
inductive XElem : Type where
  | mk : String → Option String → List XElem → XElem

/-- The tag name of an element. -/
def XElem.tag : XElem → String
  | .mk t _ _ => t

/-- The text content of an element (`none` = Python `None`). -/
def XElem.text : XElem → Option String
  | .mk _ tx _ => tx

/-- The direct children of an element, in document order. -/
def XElem.children : XElem → List XElem
  | .mk _ _ cs => cs

/-- `element.find(tag)`: the first direct child whose tag matches
(ElementTree `find` with a plain tag path is non-recursive). -/
def findTag (e : XElem) (tag : String) : Option XElem :=
  e.children.find? (fun c => c.tag == tag)

/-- One field extraction, the pattern of src/app.py lines 73–97:
`transaction.find(tag).text if transaction.find(tag) is not None else ''`.
The result is Python `str` or `None`, i.e. `Option String`. -/
def fieldValue (t : XElem) (tag : String) : Option String :=
  match findTag t tag with
  | some e => e.text
  | none => some ""

/-- The record built for one `Transaction` element: the dict literal of
src/app.py lines 99–119, key by key, in insertion order. -/
def extractRecord (t : XElem) : List (String × Option String) :=
  [("Transaction Type", fieldValue t "TransType"),
   ("Date", fieldValue t "Date"),
   ("Time", fieldValue t "Time"),
   ("Last Name", fieldValue t "LastName"),
   ("First Name", fieldValue t "FirstName"),
   ("Middle Name", fieldValue t "MiddleName"),
   ("Patron Barcode", fieldValue t "PatronBarcode"),
   ("District ID", fieldValue t "DistrictID"),
   ("Patron Type", fieldValue t "PatronType"),
   ("Grade Level", fieldValue t "PatronGradeLevel"),
   ("Homeroom", fieldValue t "PatronHomeroom"),
   ("Title", fieldValue t "Title"),
   ("ISBN", fieldValue t "ISBN"),
   ("Material Type", fieldValue t "BibType"),
   ("Publication Year", fieldValue t "PubYear"),
   ("Copy Barcode", fieldValue t "CopyBarcode"),
   ("Call Number", fieldValue t "CallNumber"),
   ("Circulation Type", fieldValue t "CircType"),
   ("Originator Username", fieldValue t "OriginatorUsername")]

/-- The (xml tag, output header) pairs of the 19 fields, in the fixed order
shared by the dict literal and the `headers` list of src/app.py. -/
def fieldTable : List (String × String) :=
  [("TransType", "Transaction Type"),
   ("Date", "Date"),
   ("Time", "Time"),
   ("LastName", "Last Name"),
   ("FirstName", "First Name"),
   ("MiddleName", "Middle Name"),
   ("PatronBarcode", "Patron Barcode"),
   ("DistrictID", "District ID"),
   ("PatronType", "Patron Type"),
   ("PatronGradeLevel", "Grade Level"),
   ("PatronHomeroom", "Homeroom"),
   ("Title", "Title"),
   ("ISBN", "ISBN"),
   ("BibType", "Material Type"),
   ("PubYear", "Publication Year"),
   ("CopyBarcode", "Copy Barcode"),
   ("CallNumber", "Call Number"),
   ("CircType", "Circulation Type"),
   ("OriginatorUsername", "Originator Username")]

/-- The header labels of src/app.py lines 130–133, in order. -/
def headers : List String :=
  ["Transaction Type", "Date", "Time", "Last Name", "First Name",
   "Middle Name", "Patron Barcode", "District ID", "Patron Type",
   "Grade Level", "Homeroom", "Title", "ISBN", "Material Type",
   "Publication Year", "Copy Barcode", "Call Number", "Circulation Type",
   "Originator Username"]

/-- The extraction loop of src/app.py lines 69–119:
`root.findall('Transaction')` selects the direct children of the root whose
tag is `Transaction` (non-recursive), and the loop appends one record per
element, in document order. -/
def parseBatch (root : XElem) : List (List (String × Option String)) :=
  (root.children.filter (fun c => c.tag == "Transaction")).foldl
    (fun acc t => acc ++ [extractRecord t]) []

/-- Python `str(v)` for a cell value that is a `str` or `None`. -/
def pyStr : Option String → String
  | some s => s
  | none => "None"

/-- Python dict subscript `data[header]`: raises `KeyError` when the key is
missing. -/
def dictGet (d : List (String × Option String)) (k : String) :
    Except String (Option String) :=
  match d.lookup k with
  | some v => .ok v
  | none => .error ("KeyError: " ++ k)

/-- One pass of the width loop body, src/app.py lines 149–154:
`try: if len(str(cell.value)) > max_length: max_length = len(cell.value)`
`except: pass`.  `len(str(v))` never raises; `len(v)` raises `TypeError`
when `v` is `None`, the exception is swallowed and `max_length` keeps its
previous value. -/
def widthStep (m : Nat) (v : Option String) : Nat :=
  if (pyStr v).length > m then
    match v with
    | some s => s.length
    | none => m
  else m

/-- The width assigned to one column, src/app.py lines 147–156:
fold the loop body over the column's cells starting from `max_length = 0`,
then `min(max_length + 2, 50)`. -/
def columnWidth (cells : List (Option String)) : Nat :=
  min (cells.foldl widthStep 0 + 2) 50

/-- The cells of column `j` (0-based), top to bottom, as `ws.columns`
yields them. -/
def colCells (rows : List (List (Option String))) (j : Nat) :
    List (Option String) :=
  rows.filterMap (fun r => r.get? j)

/-- The widths of all columns of the sheet (the sheet has
`headers.length = 19` columns, since every written row has 19 cells). -/
def sheetWidths (rows : List (List (Option String))) : List Nat :=
  (List.range headers.length).map (fun j => columnWidth (colCells rows j))

/-- The produced workbook: sheet title, the grid of cell values (row 1 the
headers, rows 2.. the data), and the assigned column widths. -/
structure Workbook where
  title : String
  rows : List (List (Option String))
  widths : List Nat
deriving DecidableEq

/-- The `BytesIO` buffer after `wb.save(excel_buffer)` and
`excel_buffer.seek(0)`: the serialised workbook with the stream position. -/
structure ExcelBuffer where
  content : Workbook
  pos : Nat
deriving DecidableEq

/-- The triple `parse_xml_to_excel` returns: `(buffer, message, count)`. -/
structure PyResult where
  buffer : Option ExcelBuffer
  message : String
  count : Nat
deriving DecidableEq

/-- The workbook-building phase, src/app.py lines 124–156: header row
written into row 1, then for each record a data row looked up key by key
(`data[header]`, which can raise `KeyError`), then the column widths. -/
def buildWorkbook (batch : List (List (String × Option String))) :
    Except String Workbook := do
  let dataRows ← batch.mapM (fun d => headers.mapM (fun h => dictGet d h))
  let rows := (headers.map (fun h => some h)) :: dataRows
  return { title := "Transactions", rows := rows, widths := sheetWidths rows }

/-- The outcome of `ET.parse(xml_file)`: a root element, or an
`ET.ParseError` carrying the parser's message for a malformed document. -/
inductive XmlInput : Type where
  | parsed : XElem → XmlInput
  | malformed : String → XmlInput

/-- `parse_xml_to_excel`, src/app.py lines 62–168: extract the batch; an
empty batch returns the no-data triple; otherwise build the workbook, save
it to a buffer seeked to position 0 and return success; a parse error
returns the invalid-XML triple; any exception escaping the `try` body
returns the processing-error triple. -/
def parse_xml_to_excel (input : XmlInput) : PyResult :=
  match input with
  | .malformed e => ⟨none, "Invalid XML file: " ++ e, 0⟩
  | .parsed root =>
    let data_rows := parseBatch root
    if data_rows.isEmpty then
      ⟨none, "No transaction data found in XML file", 0⟩
    else
      match buildWorkbook data_rows with
      | .ok wb => ⟨some ⟨wb, 0⟩, "Success", data_rows.length⟩
      | .error e => ⟨none, "Error processing file: " ++ e, 0⟩

/-- Spec-side definition, from the spec's words (section 4.2 / section 8):
the maximum string length of any cell value in a column, non-string values
stringified first, scanning every cell. -/
def specMaxLen (cells : List (Option String)) : Nat :=
  cells.foldl (fun m v => max m (pyStr v).length) 0

/-! ### Structural lemmas about the extraction loop -/

lemma foldl_push {α β : Type} (f : α → β) (l : List α) (acc : List β) :
    l.foldl (fun a t => a ++ [f t]) acc = acc ++ l.map f := by
  induction l generalizing acc with
  | nil => simp
  | cons x xs ih => simp [List.foldl_cons, ih]

lemma parseBatch_eq (root : XElem) :
    parseBatch root =
      (root.children.filter (fun c => c.tag == "Transaction")).map
        extractRecord := by
  unfold parseBatch
  simpa using foldl_push extractRecord _ []

lemma parseBatch_length (root : XElem) :
    (parseBatch root).length =
      root.children.countP (fun c => c.tag == "Transaction") := by
  rw [parseBatch_eq, List.length_map, List.countP_eq_length_filter]

lemma parseBatch_ne_nil (root : XElem)
    (h : 1 ≤ root.children.countP (fun c => c.tag == "Transaction")) :
    parseBatch root ≠ [] := by
  intro hnil
  have hlen := parseBatch_length root
  rw [hnil] at hlen
  simp at hlen
  omega

lemma extractRecord_eq_table (t : XElem) :
    extractRecord t = fieldTable.map (fun p => (p.2, fieldValue t p.1)) := rfl

/-! ### The row-writing loop never raises -/

lemma mapM_record (t : XElem) :
    headers.mapM (fun h => dictGet (extractRecord t) h) =
      Except.ok ((extractRecord t).map Prod.snd) := rfl

lemma mapM_batch (l : List XElem) :
    (l.map extractRecord).mapM
        (fun d => headers.mapM (fun h => dictGet d h)) =
      Except.ok (l.map (fun t => (extractRecord t).map Prod.snd)) := by
  induction l with
  | nil => rfl
  | cons x xs ih =>
    rw [List.map_cons, List.mapM_cons, mapM_record, List.map_cons]
    rw [ih]
    rfl

/-- The row grid the success path writes: header row then one row of record
values per batch element, in order. -/
def rowsOf (root : XElem) : List (List (Option String)) :=
  (headers.map (fun h => some h)) ::
    (parseBatch root).map (fun d => d.map Prod.snd)

/-- The workbook the success path produces. -/
def wbOf (root : XElem) : Workbook :=
  { title := "Transactions", rows := rowsOf root,
    widths := sheetWidths (rowsOf root) }

lemma buildWorkbook_ok (root : XElem) :
    buildWorkbook (parseBatch root) = Except.ok (wbOf root) := by
  unfold buildWorkbook
  rw [parseBatch_eq, mapM_batch]
  show Except.ok _ = _
  unfold wbOf rowsOf
  rw [parseBatch_eq, List.map_map]
  rfl

lemma run_success (root : XElem) (h : parseBatch root ≠ []) :
    parse_xml_to_excel (.parsed root) =
      ⟨some ⟨wbOf root, 0⟩, "Success", (parseBatch root).length⟩ := by
  have h2 : (parseBatch root).isEmpty = false := by
    cases hb : parseBatch root with
    | nil => exact absurd hb h
    | cons a as => rfl
  simp only [parse_xml_to_excel, h2, Bool.false_eq_true, if_false,
    buildWorkbook_ok]

lemma success_shape (root : XElem) (buf : ExcelBuffer) (msg : String)
    (n : Nat)
    (h : parse_xml_to_excel (.parsed root) = ⟨some buf, msg, n⟩) :
    buf = ⟨wbOf root, 0⟩ := by
  by_cases hb : parseBatch root = []
  · simp [parse_xml_to_excel, hb] at h
  · rw [run_success root hb] at h
    simp only [PyResult.mk.injEq, Option.some.injEq] at h
    exact h.1.symm

/-! ### The column-width computation -/

lemma widthStep_some (m : Nat) (s : String) :
    widthStep m (some s) = max m s.length := by
  simp only [widthStep, pyStr]
  split <;> omega

lemma widthStep_none (m : Nat) : widthStep m none = m := by
  simp only [widthStep, pyStr]
  split <;> rfl

lemma widthStep_ge (m : Nat) (v : Option String) : m ≤ widthStep m v := by
  cases v with
  | none => rw [widthStep_none]
  | some s => rw [widthStep_some]; omega

lemma foldl_widthStep_ge (cells : List (Option String)) (m : Nat) :
    m ≤ cells.foldl widthStep m := by
  induction cells generalizing m with
  | nil => simp
  | cons v vs ih =>
    rw [List.foldl_cons]
    exact le_trans (widthStep_ge m v) (ih _)

lemma foldl_widthStep_eq_max (cells : List (Option String)) (m : Nat)
    (hm : 4 ≤ m) :
    cells.foldl widthStep m =
      cells.foldl (fun a v => max a (pyStr v).length) m := by
  induction cells generalizing m with
  | nil => rfl
  | cons v vs ih =>
    cases v with
    | some s =>
      simp only [List.foldl_cons, widthStep_some, pyStr]
      exact ih _ (le_trans hm (Nat.le_max_left _ _))
    | none =>
      have h4 : (pyStr none).length = 4 := rfl
      simp only [List.foldl_cons, widthStep_none, h4, Nat.max_eq_left hm]
      exact ih _ hm

lemma columnWidth_spec (h : String) (rest : List (Option String))
    (hh : 4 ≤ h.length) :
    columnWidth (some h :: rest) =
      min (specMaxLen (some h :: rest) + 2) 50 := by
  unfold columnWidth specMaxLen
  congr 2
  simp only [List.foldl_cons, widthStep_some, pyStr]
  exact foldl_widthStep_eq_max rest _ (by omega)

lemma headers_len : ∀ h ∈ headers, 4 ≤ h.length := by decide

lemma sheetWidths_get (rows : List (List (Option String))) (j : Nat)
    (hj : j < headers.length) :
    (sheetWidths rows).get? j = some (columnWidth (colCells rows j)) := by
  unfold sheetWidths
  rw [List.get?_map, List.get?_range hj]
  rfl

lemma colCells_rowsOf (root : XElem) (j : Nat) (hj : j < headers.length) :
    colCells (rowsOf root) j =
      some (headers.get ⟨j, hj⟩) ::
        colCells ((parseBatch root).map (fun d => d.map Prod.snd)) j := by
  unfold rowsOf colCells
  rw [List.filterMap_cons]
  have hget : (headers.map (fun h => some h)).get? j =
      some (some (headers.get ⟨j, hj⟩)) := by
    rw [List.get?_map, List.get?_eq_get hj]
    rfl
  rw [hget]

lemma widths_of_success (root : XElem) (j : Nat) (hj : j < headers.length) :
    (sheetWidths (rowsOf root)).get? j =
      some (min (specMaxLen (colCells (rowsOf root) j) + 2) 50) := by
  rw [sheetWidths_get _ j hj, colCells_rowsOf root j hj,
    columnWidth_spec _ _ (headers_len _ (List.get_mem _ _ _))]

/-! ### Concrete inputs used by counterexamples and witnesses -/

/-- The `Transaction` element of the spec's round-trip scenario: seven
fields present with text, the other twelve absent. -/
def t8 : XElem := .mk "Transaction" none
  [.mk "TransType" (some "Checkout") [],
   .mk "Date" (some "2024-01-15") [],
   .mk "Time" (some "10:30") [],
   .mk "LastName" (some "Smith") [],
   .mk "FirstName" (some "Jane") [],
   .mk "Title" (some "Sample Book") [],
   .mk "ISBN" (some "1234567890") []]

/-- A document root holding the single round-trip transaction. -/
def root8 : XElem := .mk "Transactions" none [t8]

/-- A `Transaction` whose `TransType` child is present but empty:
ElementTree parses `<TransType></TransType>` with `text is None`. -/
def presentEmptyTransaction : XElem :=
  .mk "Transaction" none [.mk "TransType" none []]

/-- A `Transaction` with no `TransType` child at all. -/
def absentTransaction : XElem := .mk "Transaction" none []

/-- A root with no direct `Transaction` child; the only `Transaction`
element is nested one level deeper, inside a wrapper. -/
def rootNested : XElem :=
  .mk "Transactions" none
    [.mk "Wrapper" none [.mk "Transaction" none []]]

/-- Direct children with a nested `Transaction` inside a non-`Transaction`
child: same top-level tags as `flatChildren`. -/
def nestedChildren : List XElem :=
  [.mk "Transaction" none [.mk "Title" (some "A") []],
   .mk "Wrapper" none [.mk "Transaction" none [.mk "Title" (some "B") []]]]

/-- The same top-level tag sequence as `nestedChildren`, but with no
deeper nesting at all. -/
def flatChildren : List XElem :=
  [.mk "Transaction" none [], .mk "Wrapper" none []]

/-! ### Claim theorems -/

/-- C2 counterexample: the claim says a present-but-empty field extracts to
the empty string, indistinguishable from an absent field.  On the concrete
transaction `<Transaction><TransType></TransType></Transaction>` the code
extracts Python `None` (ElementTree gives the empty element `text = None`),
not the empty string, and this differs from the absent case's `''`. -/
theorem c2_counterexample :
    fieldValue presentEmptyTransaction "TransType" ≠ some "" ∧
    fieldValue presentEmptyTransaction "TransType" = none ∧
    fieldValue absentTransaction "TransType" = some "" ∧
    fieldValue presentEmptyTransaction "TransType" ≠
      fieldValue absentTransaction "TransType" := by decide

/-- C2 (amended): for every `Transaction` element in which a known child
field element is present but has no text content (ElementTree `text is
None`, the parse of a present-but-empty element), the extracted value for
that field is Python `None` — distinguishable from the empty string an
absent element yields. -/
theorem c2_present_empty_is_none (t e : XElem) (tag : String)
    (hfind : findTag t tag = some e) (htext : e.text = none) :
    fieldValue t tag = none := by
  unfold fieldValue
  rw [hfind]
  exact htext

/-- C2 witness: the amended theorem applied to the concrete
present-but-empty transaction. -/
theorem c2_present_empty_is_none_witness :
    fieldValue presentEmptyTransaction "TransType" = none :=
  c2_present_empty_is_none presentEmptyTransaction
    (.mk "TransType" none []) "TransType" rfl rfl

/-- C4: a well-formed document whose root has zero direct `Transaction`
children yields exactly the failure triple
`(None, "No transaction data found in XML file", 0)`: no buffer, never a
zero-row spreadsheet. -/
theorem c4_no_data (root : XElem)
    (h : root.children.countP (fun c => c.tag == "Transaction") = 0) :
    parse_xml_to_excel (.parsed root) =
      ⟨none, "No transaction data found in XML file", 0⟩ := by
  have hb : parseBatch root = [] := by
    have hlen := parseBatch_length root
    rw [h] at hlen
    exact List.length_eq_zero.mp hlen
  simp [parse_xml_to_excel, hb]

/-- C4 witness: a root whose only `Transaction` is nested inside a wrapper
(zero direct children) returns the no-data triple. -/
theorem c4_no_data_witness :
    parse_xml_to_excel (.parsed rootNested) =
      ⟨none, "No transaction data found in XML file", 0⟩ :=
  c4_no_data rootNested (by decide)

/-- C6: for every `Transaction` element in which a known field's child
element is absent, the extracted record holds the empty string (a `str`,
never Python `None`) under that field's output header. -/
theorem c6_absent_field_is_empty_string (t : XElem) (tag hdr : String)
    (hmem : (tag, hdr) ∈ fieldTable)
    (habs : ∀ c ∈ t.children, c.tag ≠ tag) :
    (hdr, some "") ∈ extractRecord t := by
  have hfind : findTag t tag = none := by
    unfold findTag
    apply List.find?_eq_none.mpr
    intro c hc
    simp only [beq_iff_eq]
    exact habs c hc
  have hval : fieldValue t tag = some "" := by
    unfold fieldValue
    rw [hfind]
  rw [extractRecord_eq_table]
  refine List.mem_map.mpr ⟨(tag, hdr), hmem, ?_⟩
  simp [hval]

/-- C6 witness: the `Date` field is absent from the concrete transaction
`absentTransaction`, so its record carries `("Date", '')`. -/
theorem c6_absent_field_is_empty_string_witness :
    ("Date", some "") ∈ extractRecord absentTransaction :=
  c6_absent_field_is_empty_string absentTransaction "Date" "Date"
    (by decide) (by intro c hc; exact absurd hc (List.not_mem_nil c))

/-- C8: the spec's round-trip scenario: one `Transaction` carrying
TransType/Date/Time/LastName/FirstName/Title/ISBN and nothing else
produces a batch of exactly one record with those seven values and the
other twelve fields equal to the empty string. -/
theorem c8_round_trip :
    parseBatch root8 =
      [[("Transaction Type", some "Checkout"),
        ("Date", some "2024-01-15"),
        ("Time", some "10:30"),
        ("Last Name", some "Smith"),
        ("First Name", some "Jane"),
        ("Middle Name", some ""),
        ("Patron Barcode", some ""),
        ("District ID", some ""),
        ("Patron Type", some ""),
        ("Grade Level", some ""),
        ("Homeroom", some ""),
        ("Title", some "Sample Book"),
        ("ISBN", some "1234567890"),
        ("Material Type", some ""),
        ("Publication Year", some ""),
        ("Copy Barcode", some ""),
        ("Call Number", some ""),
        ("Circulation Type", some ""),
        ("Originator Username", some "")]] := by decide

/-- C5: a malformed document returns exactly
`(None, "Invalid XML file: <detail>", 0)` with the parser's message, and
every call returns one of the four status triples of the contract. -/
theorem c5_status_contract (input : XmlInput) :
    (∀ e, input = .malformed e →
      parse_xml_to_excel input = ⟨none, "Invalid XML file: " ++ e, 0⟩) ∧
    ((∃ b n, parse_xml_to_excel input = ⟨some b, "Success", n⟩) ∨
      parse_xml_to_excel input =
        ⟨none, "No transaction data found in XML file", 0⟩ ∨
      (∃ e, parse_xml_to_excel input =
        ⟨none, "Invalid XML file: " ++ e, 0⟩) ∨
      (∃ e, parse_xml_to_excel input =
        ⟨none, "Error processing file: " ++ e, 0⟩)) := by
  constructor
  · rintro e rfl
    rfl
  · cases input with
    | malformed e => exact Or.inr (Or.inr (Or.inl ⟨e, rfl⟩))
    | parsed root =>
      by_cases hb : parseBatch root = []
      · exact Or.inr (Or.inl (by simp [parse_xml_to_excel, hb]))
      · exact Or.inl
          ⟨⟨wbOf root, 0⟩, (parseBatch root).length, run_success root hb⟩

/-- C5 witness: the contract applied to a concrete malformed input. -/
theorem c5_status_contract_witness :
    parse_xml_to_excel (.malformed "no element found: line 1, column 0") =
      ⟨none, "Invalid XML file: " ++ "no element found: line 1, column 0",
        0⟩ :=
  (c5_status_contract
    (.malformed "no element found: line 1, column 0")).1 _ rfl

/-- C7: the extractor selects exactly the direct children of the root whose
tag is `Transaction`: the batch is the in-order image of that filtered
child list, its size is the count of matching direct children, and that
size is unchanged by any replacement of the children that keeps the
top-level tag sequence — in particular `Transaction` elements nested at
deeper levels contribute no record. -/
theorem c7_direct_children_only (tag : String) (tx : Option String)
    (cs cs2 : List XElem) (h2 : cs2.map XElem.tag = cs.map XElem.tag) :
    parseBatch (.mk tag tx cs) =
      (cs.filter (fun c => c.tag == "Transaction")).map extractRecord ∧
    (parseBatch (.mk tag tx cs)).length =
      cs.countP (fun c => c.tag == "Transaction") ∧
    (parseBatch (.mk tag tx cs2)).length =
      (parseBatch (.mk tag tx cs)).length := by
  refine ⟨?_, ?_, ?_⟩
  · rw [parseBatch_eq]
    rfl
  · rw [parseBatch_length]
    rfl
  · rw [parseBatch_length, parseBatch_length]
    show cs2.countP (fun c => c.tag == "Transaction") =
      cs.countP (fun c => c.tag == "Transaction")
    have e1 : (cs2.map XElem.tag).countP (fun s => s == "Transaction") =
        cs2.countP (fun c => c.tag == "Transaction") := by
      rw [List.countP_map]
      rfl
    have e2 : (cs.map XElem.tag).countP (fun s => s == "Transaction") =
        cs.countP (fun c => c.tag == "Transaction") := by
      rw [List.countP_map]
      rfl
    rw [← e1, ← e2, h2]

/-- C7 witness: a child list with a `Transaction` nested inside a wrapper
produces as many records as the flat list with the same top-level tags. -/
theorem c7_direct_children_only_witness :
    parseBatch (.mk "Transactions" none flatChildren) =
      (flatChildren.filter (fun c => c.tag == "Transaction")).map
        extractRecord ∧
    (parseBatch (.mk "Transactions" none flatChildren)).length =
      flatChildren.countP (fun c => c.tag == "Transaction") ∧
    (parseBatch (.mk "Transactions" none nestedChildren)).length =
      (parseBatch (.mk "Transactions" none flatChildren)).length :=
  c7_direct_children_only "Transactions" none flatChildren nestedChildren
    (by decide)

/-- C9: on a root with at least one direct `Transaction` child the
spreadsheet-writing phase cannot fail: `buildWorkbook` never returns an
error, the generic "Error processing file" triple is unreachable, and the
call returns the success triple with the buffer at position 0. -/
theorem c9_writer_never_fails (root : XElem)
    (hN : 1 ≤ root.children.countP (fun c => c.tag == "Transaction")) :
    (∀ e, buildWorkbook (parseBatch root) ≠ .error e) ∧
    ∃ wb : Workbook,
      buildWorkbook (parseBatch root) = .ok wb ∧
      parse_xml_to_excel (.parsed root) =
        ⟨some ⟨wb, 0⟩, "Success", (parseBatch root).length⟩ ∧
      ∀ e, parse_xml_to_excel (.parsed root) ≠
        ⟨none, "Error processing file: " ++ e, 0⟩ := by
  have hb := parseBatch_ne_nil root hN
  refine ⟨?_, wbOf root, buildWorkbook_ok root, run_success root hb, ?_⟩
  · intro e he
    rw [buildWorkbook_ok root] at he
    exact Except.noConfusion he
  · intro e he
    rw [run_success root hb] at he
    simp only [PyResult.mk.injEq] at he
    exact Option.noConfusion he.1

/-- C9 witness: the writer phase succeeds on the round-trip input. -/
theorem c9_writer_never_fails_witness :
    (∀ e, buildWorkbook (parseBatch root8) ≠ .error e) ∧
    ∃ wb : Workbook,
      buildWorkbook (parseBatch root8) = .ok wb ∧
      parse_xml_to_excel (.parsed root8) =
        ⟨some ⟨wb, 0⟩, "Success", (parseBatch root8).length⟩ ∧
      ∀ e, parse_xml_to_excel (.parsed root8) ≠
        ⟨none, "Error processing file: " ++ e, 0⟩ :=
  c9_writer_never_fails root8 (by decide)

/-- C1: with N ≥ 1 direct `Transaction` children the call succeeds with
record count N, the batch is the in-order image of those children, the
sheet has N+1 rows, row 1 is the header row, row i+2 holds the 19 values
of record i+1 in field order, and every row has 19 cells. -/
theorem c1_batch_and_rows (root : XElem)
    (hN : 1 ≤
      (root.children.filter (fun c => c.tag == "Transaction")).length) :
    ∃ buf : ExcelBuffer,
      parse_xml_to_excel (.parsed root) =
        ⟨some buf, "Success",
          (root.children.filter (fun c => c.tag == "Transaction")).length⟩ ∧
      parseBatch root =
        (root.children.filter (fun c => c.tag == "Transaction")).map
          extractRecord ∧
      buf.content.rows.length =
        (root.children.filter (fun c => c.tag == "Transaction")).length
          + 1 ∧
      buf.content.rows.get? 0 = some (headers.map (fun h => some h)) ∧
      headers.length = 19 ∧
      (∀ i, buf.content.rows.get? (i + 1) =
        ((root.children.filter
            (fun c => c.tag == "Transaction")).get? i).map
          (fun t => (extractRecord t).map Prod.snd)) ∧
      (∀ r ∈ buf.content.rows, r.length = 19) := by
  have hlen : (parseBatch root).length =
      (root.children.filter (fun c => c.tag == "Transaction")).length := by
    rw [parseBatch_eq, List.length_map]
  have hne : parseBatch root ≠ [] := by
    intro h0
    rw [h0] at hlen
    simp only [List.length_nil] at hlen
    omega
  refine ⟨⟨wbOf root, 0⟩, ?_, parseBatch_eq root, ?_, rfl, rfl, ?_, ?_⟩
  · rw [run_success root hne, hlen]
  · show (rowsOf root).length = _ + 1
    unfold rowsOf
    rw [List.length_cons, List.length_map, hlen]
  · intro i
    show (rowsOf root).get? (i + 1) = _
    unfold rowsOf
    rw [List.get?_cons_succ, parseBatch_eq, List.get?_map, List.get?_map,
      Option.map_map]
    rfl
  · intro r hr
    replace hr : r ∈ rowsOf root := hr
    unfold rowsOf at hr
    rcases List.mem_cons.mp hr with h1 | h1
    · rw [h1]
      rfl
    · rcases List.mem_map.mp h1 with ⟨d, hd, rfl⟩
      rw [List.length_map]
      rw [parseBatch_eq] at hd
      rcases List.mem_map.mp hd with ⟨t, ht, rfl⟩
      rfl

/-- C1 witness: the theorem applied to the concrete one-transaction
document `root8`. -/
theorem c1_batch_and_rows_witness :
    ∃ buf : ExcelBuffer,
      parse_xml_to_excel (.parsed root8) =
        ⟨some buf, "Success",
          (root8.children.filter
            (fun c => c.tag == "Transaction")).length⟩ ∧
      parseBatch root8 =
        (root8.children.filter (fun c => c.tag == "Transaction")).map
          extractRecord ∧
      buf.content.rows.length =
        (root8.children.filter (fun c => c.tag == "Transaction")).length
          + 1 ∧
      buf.content.rows.get? 0 = some (headers.map (fun h => some h)) ∧
      headers.length = 19 ∧
      (∀ i, buf.content.rows.get? (i + 1) =
        ((root8.children.filter
            (fun c => c.tag == "Transaction")).get? i).map
          (fun t => (extractRecord t).map Prod.snd)) ∧
      (∀ r ∈ buf.content.rows, r.length = 19) :=
  c1_batch_and_rows root8 (by decide)

/-- C3: in every produced spreadsheet, every column's width equals
`min(maxLen + 2, 50)` where `maxLen` is the maximum length of the
stringified value over the header cell and all data cells of the column
(`specMaxLen`, the spec-side formula). -/
theorem c3_column_width_formula (root : XElem) (buf : ExcelBuffer)
    (msg : String) (n : Nat)
    (h : parse_xml_to_excel (.parsed root) = ⟨some buf, msg, n⟩) :
    buf.content.widths.length = headers.length ∧
    ∀ j, j < headers.length →
      buf.content.widths.get? j =
        some (min (specMaxLen (colCells buf.content.rows j) + 2) 50) := by
  have hbuf := success_shape root buf msg n h
  subst hbuf
  constructor
  · show (sheetWidths (rowsOf root)).length = _
    unfold sheetWidths
    rw [List.length_map, List.length_range]
  · intro j hj
    exact widths_of_success root j hj

/-- C3 witness: the width formula holds for the workbook produced from the
concrete one-transaction document. -/
theorem c3_column_width_formula_witness :
    (⟨wbOf root8, 0⟩ : ExcelBuffer).content.widths.length =
      headers.length ∧
    ∀ j, j < headers.length →
      (⟨wbOf root8, 0⟩ : ExcelBuffer).content.widths.get? j =
        some (min (specMaxLen
          (colCells (⟨wbOf root8, 0⟩ : ExcelBuffer).content.rows j) + 2)
          50) :=
  c3_column_width_formula root8 ⟨wbOf root8, 0⟩ "Success"
    (parseBatch root8).length (run_success root8 (by decide))

/-- C10: every produced spreadsheet has 19 column widths, each between 6
and 50 inclusive: the header cell is scanned, the shortest header label
has length 4, and the cap is 50. -/
theorem c10_width_bounds (root : XElem) (buf : ExcelBuffer) (msg : String)
    (n : Nat)
    (h : parse_xml_to_excel (.parsed root) = ⟨some buf, msg, n⟩) :
    buf.content.widths.length = 19 ∧
    ∀ w ∈ buf.content.widths, 6 ≤ w ∧ w ≤ 50 := by
  have hbuf := success_shape root buf msg n h
  subst hbuf
  constructor
  · show (sheetWidths (rowsOf root)).length = 19
    unfold sheetWidths
    rw [List.length_map, List.length_range]
    rfl
  · intro w hw
    replace hw : w ∈ sheetWidths (rowsOf root) := hw
    unfold sheetWidths at hw
    rcases List.mem_map.mp hw with ⟨j, hj, rfl⟩
    rw [List.mem_range] at hj
    constructor
    · rw [colCells_rowsOf root j hj]
      unfold columnWidth
      have h4 : 4 ≤ (headers.get ⟨j, hj⟩).length :=
        headers_len _ (List.get_mem _ _ _)
      have hstep : (headers.get ⟨j, hj⟩).length ≤
          (some (headers.get ⟨j, hj⟩) ::
            colCells ((parseBatch root).map (fun d => d.map Prod.snd)) j
            ).foldl widthStep 0 := by
        rw [List.foldl_cons, widthStep_some]
        exact le_trans (Nat.le_max_right _ _) (foldl_widthStep_ge _ _)
      omega
    · unfold columnWidth
      exact Nat.min_le_right _ _

/-- C10 witness: the bounds hold for the workbook produced from the
concrete one-transaction document. -/
theorem c10_width_bounds_witness :
    (⟨wbOf root8, 0⟩ : ExcelBuffer).content.widths.length = 19 ∧
    ∀ w ∈ (⟨wbOf root8, 0⟩ : ExcelBuffer).content.widths,
      6 ≤ w ∧ w ≤ 50 :=
  c10_width_bounds root8 ⟨wbOf root8, 0⟩ "Success"
    (parseBatch root8).length (run_success root8 (by decide))
